import Mathlib

/-!
Verification development for the Unhinged Codex server (`server.mjs`).

The JavaScript source is shallowly embedded: JavaScript values are modelled
by the inductive `JSVal`, property access and iteration carry the exception
semantics of JavaScript (`Except String` with the thrown message as the
error), and every function of the source is translated into a Lean
definition of the same name.  Strings are modelled as Lean `String`
(sequences of characters; the UTF-16 code-unit view of JavaScript only
diverges on astral characters, which none of the verified properties
concern).  `String.prototype.trim` is modelled by `jsTrim` using
`Char.isWhitespace`, which agrees with the JavaScript whitespace class on
all characters appearing in the development.
-/

/-- A JavaScript value: the shapes that can reach the helpers of
`server.mjs` through its JSON/SDK boundary. -/
inductive JSVal where
  | undefined
  | null
  | bool : Bool → JSVal
  | num : Int → JSVal
  | str : String → JSVal
  | arr : List JSVal → JSVal
  | obj : List (String × JSVal) → JSVal

/-- JavaScript truthiness of a value (`if (v)`).  `NaN` is not modelled;
no numeric value in the embedded code paths can be `NaN`. -/
def truthy : JSVal → Bool
  | .undefined => false
  | .null => false
  | .bool b => b
  | .num n => !(n == 0)
  | .str s => !(s == "")
  | .arr _ => true
  | .obj _ => true

/-- A value is nullish (`null` or `undefined`): property access on it throws. -/
def nullish : JSVal → Bool
  | .undefined => true
  | .null => true
  | _ => false

/-- Property access `v.k` with JavaScript exception semantics: throws a
`TypeError` on `null`/`undefined`, yields the field of an object (or
`undefined` when absent), and `undefined` for properties of primitives and
unnamed properties of arrays. -/
def getField (v : JSVal) (k : String) : Except String JSVal :=
  match v with
  | .undefined => .error ("TypeError: cannot read property " ++ k ++ " of undefined")
  | .null => .error ("TypeError: cannot read property " ++ k ++ " of null")
  | .obj fs => .ok ((List.lookup k fs).getD .undefined)
  | _ => .ok .undefined

/-- Property access `v.k` on a receiver already known to be non-nullish
(guarded by a truthiness test in the source), hence never throwing. -/
def getFieldP (v : JSVal) (k : String) : JSVal :=
  match v with
  | .obj fs => (List.lookup k fs).getD .undefined
  | _ => .undefined

/-- Index access `v[i]` on a non-nullish receiver: element of an array,
otherwise `undefined`. -/
def jsIndex (v : JSVal) (i : Nat) : JSVal :=
  match v with
  | .arr xs => (xs.get? i).getD .undefined
  | _ => .undefined

/-- Iteration `for (const x of v)`: arrays yield their elements, strings
their characters (as one-character strings), everything else throws a
`TypeError`. -/
def jsIterate : JSVal → Except String (List JSVal)
  | .arr xs => .ok xs
  | .str s => .ok (s.toList.map (fun c => JSVal.str (String.mk [c])))
  | _ => .error "TypeError: value is not iterable"

/-- The check `typeof v === "string"` of the source. -/
def isString : JSVal → Bool
  | .str _ => true
  | _ => false

/-- The string carried by a `JSVal.str`; only applied under `isString`. -/
def jsStr : JSVal → String
  | .str s => s
  | _ => ""

/-- The short-circuit `a || b` of JavaScript on values. -/
def jsOr (a b : JSVal) : JSVal :=
  if truthy a then a else b

/-- `String.prototype.trim`: strip leading and trailing whitespace. -/
def jsTrim (s : String) : String :=
  String.mk (((s.toList.dropWhile Char.isWhitespace).reverse.dropWhile
      Char.isWhitespace).reverse)

/- ---------------------------------------------------------------------
Response Normalizer (`extractTextFromResponse`, `server.mjs` lines 79-113).
The nested loops of the source are rendered as structural recursions
`partsChunks` (inner loop over `item.content`) and `itemsChunks` (outer
loop over `resp.output`); the list of pushed chunks is returned in push
order.
--------------------------------------------------------------------- -/

/-- Body of the inner loop of `extractTextFromResponse` for one content
part `c`: push `c.text` when it is a string, else push
`c.output_text.text` when `c.output_text` is truthy and that field is a
string.  Accessing `c.text` throws when `c` is nullish, exactly as in the
source. -/
def partChunk (c : JSVal) : Except String (List String) :=
  match getField c "text" with
  | .error e => .error e
  | .ok t =>
    if isString t then .ok [jsStr t]
    else
      match getField c "output_text" with
      | .error e => .error e
      | .ok ot =>
        if truthy ot && isString (getFieldP ot "text") then
          .ok [jsStr (getFieldP ot "text")]
        else .ok []

/-- The inner loop of `extractTextFromResponse` over the elements of
`item.content`, in source order. -/
def partsChunks : List JSVal → Except String (List String)
  | [] => .ok []
  | c :: cs =>
    match partChunk c with
    | .error e => .error e
    | .ok h =>
      match partsChunks cs with
      | .error e => .error e
      | .ok t => .ok (h ++ t)

/-- Body of the outer loop of `extractTextFromResponse` for one output
item: skip falsy items (`if (!item) continue`), collect the content-part
chunks when `item.content` is an array, then additionally push
`item.output_text.text` when present and a string. -/
def itemChunks (item : JSVal) : Except String (List String) :=
  if !truthy item then .ok []
  else
    let content := getFieldP item "content"
    let later :=
      (let iot := getFieldP item "output_text"
       if truthy iot && isString (getFieldP iot "text") then
         [jsStr (getFieldP iot "text")]
       else [])
    match content with
    | .arr parts =>
      (match partsChunks parts with
       | .error e => .error e
       | .ok cs => .ok (cs ++ later))
    | _ => .ok later

/-- The outer loop of `extractTextFromResponse` over `resp.output`. -/
def itemsChunks : List JSVal → Except String (List String)
  | [] => .ok []
  | item :: items =>
    match itemChunks item with
    | .error e => .error e
    | .ok h =>
      match itemsChunks items with
      | .error e => .error e
      | .ok t => .ok (h ++ t)

/-- `extractTextFromResponse(resp)` of `server.mjs`: return `""` when
`resp` or `resp.output` is falsy, otherwise iterate the output items
collecting text chunks, append `resp.output_text.text` when present and a
string, and return the chunks joined and trimmed.  A thrown `TypeError`
(non-iterable `resp.output`, nullish content part) is an `.error`. -/
def extractTextFromResponse (resp : JSVal) : Except String String :=
  if !truthy resp then .ok ""
  else
    let output := getFieldP resp "output"
    if !truthy output then .ok ""
    else
      match jsIterate output with
      | .error e => .error e
      | .ok items =>
        match itemsChunks items with
        | .error e => .error e
        | .ok chunks =>
          let rot := getFieldP resp "output_text"
          let finalChunks :=
            if truthy rot && isString (getFieldP rot "text") then
              chunks ++ [jsStr (getFieldP rot "text")]
            else chunks
          .ok (jsTrim (String.join finalChunks))

/- ---------------------------------------------------------------------
Configuration constants of `server.mjs` (lines 18-24, 40-58).  The model
names are the defaults used when the corresponding environment variables
are unset; the claims only ever compare against the tier identifiers
symbolically.
--------------------------------------------------------------------- -/

/-- Primary (Responses API) model identifier, default of `CODE_MODEL`. -/
def CODE_MODEL : String := "gpt-5.1-codex-max"

/-- Secondary (chat completions) model identifier, default of
`FALLBACK_MODEL`. -/
def FALLBACK_MODEL : String := "gpt-5.1-chat-latest"

/-- Output cap passed to the secondary tier (`MAX_CHAT_COMPLETION_TOKENS`). -/
def MAX_CHAT_COMPLETION_TOKENS : Nat := 96000

/-- The fixed system/style instruction (`BASE_SYSTEM_PROMPT`), template
literal trimmed exactly as in the source. -/
def BASE_SYSTEM_PROMPT : String :=
  jsTrim ("\nYou are an elite senior software engineer and code generation engine.\n\nGOALS:\n- Generate extremely large, production-quality codebases from detailed prompts.\n- When asked to \"refactor\", \"review\", or \"improve\" code, output the FULL revised code, not just comments.\n- Prefer complete multi-file style outputs inline (clear file headers in comments) rather than vague advice.\n\nBEHAVIOR:\n- Treat each conversation as a coding session with full memory of prior messages.\n- Assume the user wants the MAXIMUM safe amount of code the API will allow in a single response.\n- Do NOT summarize unless explicitly asked. Prioritize code over explanation.\n- When refactoring uploaded code, output the improved version in full.\n- Use clear file separators like:\n// file: src/server.ts\n// file: src/components/App.tsx\n\n- Avoid meta-commentary. Keep explanation compact and put it AFTER the full code when needed.\n")

/- ---------------------------------------------------------------------
Session data model (`server.mjs` lines 37-38, 64-76).  A session object
lives on a heap (`Store.objs`); the `sessions` map holds references
(heap indices) so that the reference identity of `getOrCreateSession` is
expressible.
--------------------------------------------------------------------- -/

/-- Role tag of a conversational turn. -/
inductive Role where
  | user
  | assistant
  | system
deriving Repr, DecidableEq

/-- One message of a session history (`{ role, content }`).  The content
is a `JSVal` because the assistant turn stores `result.text`, which on the
secondary tier is whatever `completion.choices[0].message.content` held. -/
structure Turn where
  role : Role
  content : JSVal

/-- A session object: `{ id, messages }`. -/
structure Session where
  id : String
  messages : List Turn

/-- The global mutable state: `sessions` is the `Map` from identifier to
session reference, `objs` is the heap of session objects addressed by
those references. -/
structure Store where
  refs : List (String × Nat)
  objs : List Session

/-- The empty state at process start (`const sessions = new Map()`). -/
def Store.empty : Store := ⟨[], []⟩

/-- `getOrCreateSession(sessionId)` of `server.mjs`.  A falsy identifier
(absent or empty: the HTTP boundary delivers a string or nothing) is
replaced by a freshly generated one, modelled by the `freshId` parameter
standing for the timestamp-plus-random string the source builds.  A known
identifier returns the existing reference and leaves the store unchanged;
otherwise a new session object is allocated and registered. -/
def getOrCreateSession (sessionId : Option String) (freshId : String)
    (st : Store) : Nat × Store :=
  let sid :=
    match sessionId with
    | none => freshId
    | some s => if s = "" then freshId else s
  match List.lookup sid st.refs with
  | some r => (r, st)
  | none =>
    let r := st.objs.length
    (r, { refs := (sid, r) :: st.refs, objs := st.objs ++ [⟨sid, []⟩] })

/-- Replace the element at index `i` by `f` of it (identity out of range). -/
def listModify (l : List α) (i : Nat) (f : α → α) : List α :=
  match l, i with
  | [], _ => []
  | x :: xs, 0 => f x :: xs
  | x :: xs, n + 1 => x :: listModify xs n f

/-- `session.messages.push(turn)` on the session object at reference `r`. -/
def pushTurn (st : Store) (r : Nat) (t : Turn) : Store :=
  { st with objs := listModify st.objs r (fun s => { s with messages := s.messages ++ [t] }) }

/- ---------------------------------------------------------------------
Fallback Orchestrator (`generateWithFallback`, `server.mjs` lines
116-208).  The two outbound endpoints are oracles: `responsesCreate`
receives the attempt number (successive invocations of the external
service may differ) and the request input; `chatCompletionsCreate`
receives the chat messages.  A raised fault is an `.error` carrying the
fault message.
--------------------------------------------------------------------- -/

/-- The two backend tiers as oracles. -/
structure Backend where
  responsesCreate : Nat → List Turn → Except String JSVal
  chatCompletionsCreate : List Turn → Except String JSVal

/-- The record returned on success: `{ text, modelUsed, fromFallback }`. -/
structure GenResult where
  text : JSVal
  modelUsed : String
  fromFallback : Bool

/-- One outbound call, recorded for stating which tiers were invoked. -/
inductive TierCall where
  | primaryAttempt : Nat → TierCall
  | secondary
deriving Repr, DecidableEq

/-- The request input of the primary tier: the system prompt followed by
the full session history (`responsesInput`, lines 119-125). -/
def responsesInputOf (session : Session) : List Turn :=
  ⟨Role.system, .str BASE_SYSTEM_PROMPT⟩ ::
    session.messages.map (fun m => ⟨m.role, m.content⟩)

/-- The request messages of the secondary tier, built identically
(`chatMessages`, lines 171-177). -/
def chatMessagesOf (session : Session) : List Turn :=
  ⟨Role.system, .str BASE_SYSTEM_PROMPT⟩ ::
    session.messages.map (fun m => ⟨m.role, m.content⟩)

/-- The error message synthesized when a primary attempt returns an
envelope that normalizes to empty text (line 156). -/
def emptyOutputMsg : String := "Empty output from Responses API"

/-- The sentinel substituted when the secondary completion carries no
content (line 192). -/
def noContentSentinel : String := "[No content returned from fallback model]"

/-- One primary-tier attempt as seen by the `try` block of lines 131-160:
the outbound call followed by normalization, either of which may throw. -/
def attemptResult (b : Backend) (input : List Turn) (attempt : Nat) :
    Except String String :=
  match b.responsesCreate attempt input with
  | .error e => .error e
  | .ok resp => extractTextFromResponse resp

/-- The optional chain `completion.choices?.[0]?.message?.content` of
line 191: the plain access of `choices` throws on a nullish completion;
each later link short-circuits to `undefined` on a nullish receiver. -/
def chainContent (completion : JSVal) : Except String JSVal :=
  match getField completion "choices" with
  | .error e => .error e
  | .ok choices =>
    .ok
      (if nullish choices then JSVal.undefined
       else
         let c0 := jsIndex choices 0
         if nullish c0 then JSVal.undefined
         else
           let m := getFieldP c0 "message"
           if nullish m then JSVal.undefined
           else getFieldP m "content")

/-- The secondary-tier step (lines 179-207): on a successful call, extract
`completion.choices?.[0]?.message?.content` and substitute the sentinel
when it is falsy; on a raised fault — from the call or from the
extraction, both inside the `try` — throw `lastError || err`. -/
def secondaryStep (b : Backend) (chatMessages : List Turn)
    (lastError : Option String) : Except String GenResult :=
  match b.chatCompletionsCreate chatMessages with
  | .ok completion =>
    (match chainContent completion with
     | .error ce => .error (lastError.getD ce)
     | .ok content =>
       .ok ⟨jsOr content (.str noContentSentinel), FALLBACK_MODEL, true⟩)
  | .error e => .error (lastError.getD e)

/-- The second primary attempt and everything after it.  In the source,
iteration 2 of the loop either returns a success or overwrites
`lastError` (with the raised fault, or with the synthesized empty-output
error), so the value of `lastError` after attempt 1 never reaches the
secondary step. -/
def attempt2Step (b : Backend) (session : Session) :
    Except String GenResult × List TierCall :=
  match attemptResult b (responsesInputOf session) 2 with
  | .ok t2 =>
    if t2 = "" then
      (secondaryStep b (chatMessagesOf session) (some emptyOutputMsg),
       [.primaryAttempt 1, .primaryAttempt 2, .secondary])
    else
      (.ok ⟨.str t2, CODE_MODEL, false⟩, [.primaryAttempt 1, .primaryAttempt 2])
  | .error e2 =>
    (secondaryStep b (chatMessagesOf session) (some e2),
     [.primaryAttempt 1, .primaryAttempt 2, .secondary])

/-- `generateWithFallback(session)` of `server.mjs`: the primary tier
attempted twice, a non-empty normalized text returning immediately with
`fromFallback: false`; then the secondary tier once.  The second
component records the outbound calls actually made, in order. -/
def generateWithFallback (b : Backend) (session : Session) :
    Except String GenResult × List TierCall :=
  match attemptResult b (responsesInputOf session) 1 with
  | .ok t1 =>
    if t1 = "" then attempt2Step b session
    else (.ok ⟨.str t1, CODE_MODEL, false⟩, [.primaryAttempt 1])
  | .error _ => attempt2Step b session

/-- An attempt counts as failed when it raised a fault or normalized to
empty text (the two cases that set `lastError` and continue). -/
def attemptFailedB : Except String String → Bool
  | .ok t => t == ""
  | .error _ => true

/- ---------------------------------------------------------------------
Content Triage and the upload/chat handlers (`server.mjs` lines 236-402).
The JSON body fields are modelled with the types the HTTP boundary
delivers on the embedded paths: `sessionId`, `fileName`, `fileType`,
`fileContent` and `instructions` are strings or absent (`Option String`),
`fileSize` is a number or absent (`Option Int`; a non-number value
behaves as absent, exactly the `typeof fileSize === "number"` test).
--------------------------------------------------------------------- -/

/-- The default-substitution idiom `v || d` on an optional string. -/
def orDefault (v : Option String) (d : String) : String :=
  match v with
  | none => d
  | some s => if s = "" then d else s

/-- The value of `(n / 1024).toFixed(1)` for an integer byte count `n ≥ 0`.
Division by `1024 = 2 ^ 10` is exact in binary floating point, and
`toFixed(1)` picks the integer numerator closest to the exact quotient,
ties towards the larger, i.e. `⌊(10 n + 512) / 1024⌋` tenths; negative
counts (not producible by the boundary) are formatted by magnitude. -/
def toFixed1KB (n : Int) : String :=
  let m := Int.fdiv (10 * n + 512) 1024
  if m < 0 then
    "-" ++ toString (Int.fdiv (-m) 10) ++ "." ++ toString (Int.emod (-m) 10)
  else
    toString (Int.fdiv m 10) ++ "." ++ toString (Int.emod m 10)

/-- `humanSize` of the upload handler (lines 301-304). -/
def humanSizeOf : Option Int → String
  | some n => toFixed1KB n ++ " KB"
  | none => "unknown size"

/-- `String.prototype.slice(0, n)`: the first `n` characters. -/
def jsSliceTo (s : String) (n : Nat) : String :=
  String.mk (s.toList.take n)

/-- `String.prototype.slice(-n)`: the last `n` characters (the whole
string when it is shorter than `n`, matching the clamping of `slice`). -/
def jsSliceNeg (s : String) (n : Nat) : String :=
  String.mk (s.toList.drop (s.toList.length - n))

/-- The character ceiling of the truncation branch (`MAX_CHARS`, line 333;
the within-budget branch compares against the same literal `200000`). -/
def MAX_CHARS : Nat := 200000

/-- The default instruction text of the two content-bearing branches. -/
def DEFAULT_REFACTOR_INSTRUCTIONS : String :=
  "Refactor and improve this code. Fix bugs and improve structure."

/-- The describe-only branch of the triage (lines 359-372). -/
def describeOnlyMessage (fileName : String) (fileType : Option String)
    (humanSize : String) (instructions : Option String) : String :=
  jsTrim ("\nThe user uploaded a non-text or unsupported file for refactoring.\n\nFile name: "
    ++ fileName
    ++ "\nMIME type: " ++ orDefault fileType "unknown"
    ++ "\nSize: " ++ humanSize
    ++ "\n\nThe raw contents are not available in this minimal webapp (e.g. .zip or .docx).\nBased on the user's description, provide high-level advice on how to refactor and improve the codebase, focusing on architecture, modularization, testing, and maintainability.\n\nUSER REQUEST / CONTEXT:\n"
    ++ orDefault instructions "High-level refactor strategy for this codebase."
    ++ "\n      ")

/-- The `messageForModel` triage of the upload handler (lines 306-373),
evaluated in source order: a string content that trims non-empty and fits
the `200000` ceiling is embedded verbatim; a string content that trims
non-empty but exceeds the ceiling is embedded as a head and a tail of
`MAX_CHARS / 2` characters each with an omitted-character note; anything
else produces the describe-only instruction. -/
def messageForModel (fileName : String) (fileType : Option String)
    (humanSize : String) (fileContent : Option String)
    (instructions : Option String) : String :=
  match fileContent with
  | some content =>
    if 0 < (jsTrim content).length then
      if content.length ≤ 200000 then
        jsTrim ("\nThe user uploaded a code file for review/refactor.\n\nFile name: "
          ++ fileName
          ++ "\nMIME type: " ++ orDefault fileType "unknown"
          ++ "\nSize: " ++ humanSize
          ++ "\n\nHere is the full (or near full) content of the file:\n\n"
          ++ content
          ++ "\n\nUSER REQUEST / CONTEXT:\n"
          ++ orDefault instructions DEFAULT_REFACTOR_INSTRUCTIONS
          ++ "\n\nPlease refactor and improve this code. Output the full improved version, not just bullet points.\n      ")
      else
        let half := MAX_CHARS / 2
        let headSeg := jsSliceTo content half
        let tailSeg := jsSliceNeg content half
        let omitted : Int := (content.length : Int) - (MAX_CHARS : Int)
        jsTrim ("\nThe user uploaded a very large code file for review/refactor.\n\nFile name: "
          ++ fileName
          ++ "\nMIME type: " ++ orDefault fileType "unknown"
          ++ "\nSize: " ++ humanSize
          ++ "\nOriginal length (chars): " ++ toString content.length
          ++ "\nNOTE: Content has been truncated to fit within model limits. Approximately "
          ++ toString omitted
          ++ " characters omitted.\n\n--- BEGIN TRUNCATED CONTENT (HEAD) ---\n"
          ++ headSeg
          ++ "\n--- MIDDLE OMITTED ---\n"
          ++ tailSeg
          ++ "\n--- END TRUNCATED CONTENT ---\n\nUSER REQUEST / CONTEXT:\n"
          ++ orDefault instructions DEFAULT_REFACTOR_INSTRUCTIONS
          ++ "\n\nPlease refactor and improve this code. Focus on architecture, clarity, and obvious issues based on the visible portions. Output full revised code where possible.\n      ")
    else
      describeOnlyMessage fileName fileType humanSize instructions
  | none => describeOnlyMessage fileName fileType humanSize instructions

/-- The JSON body a handler answers with. -/
inductive ApiResponse where
  | badRequest : String → ApiResponse
  | ok : JSVal → String → Bool → String → ApiResponse
  | serverError : String → ApiResponse

/-- The `POST /api/chat` handler (lines 236-276): validate `message`,
resolve the session, append the user turn, run the orchestrator, append
the assistant turn on success, and on a raised fault answer a server
fault carrying `err.message` (or the generic text when that is empty)
without touching the session further. -/
def apiChat (b : Backend) (freshId : String) (st : Store)
    (sessionId : Option String) (message : JSVal) : ApiResponse × Store :=
  if !(truthy message && isString message) then
    (.badRequest "Missing 'message' in request body.", st)
  else
    let rs := getOrCreateSession sessionId freshId st
    let st2 := pushTurn rs.2 rs.1 ⟨Role.user, message⟩
    let sess := (st2.objs.get? rs.1).getD ⟨"", []⟩
    match (generateWithFallback b sess).1 with
    | .ok result =>
      (.ok result.text result.modelUsed result.fromFallback sess.id,
       pushTurn st2 rs.1 ⟨Role.assistant, result.text⟩)
    | .error e =>
      (.serverError
        (if e = "" then
          "Unexpected error in /api/chat (check server logs for details)."
        else e), st2)

/-- The `POST /api/upload` handler (lines 280-402): validate `fileName`,
resolve the session, triage the upload into `messageForModel`, append it
as the user turn, run the orchestrator, append the assistant turn on
success, and on a raised fault answer a server fault without touching the
session further. -/
def apiUpload (b : Backend) (freshId : String) (st : Store)
    (sessionId fileName fileType : Option String) (fileSize : Option Int)
    (fileContent instructions : Option String) : ApiResponse × Store :=
  match fileName with
  | none => (.badRequest "Missing 'fileName' in request body.", st)
  | some fn =>
    if fn = "" then (.badRequest "Missing 'fileName' in request body.", st)
    else
      let rs := getOrCreateSession sessionId freshId st
      let humanSize := humanSizeOf fileSize
      let msg := messageForModel fn fileType humanSize fileContent instructions
      let st2 := pushTurn rs.2 rs.1 ⟨Role.user, .str msg⟩
      let sess := (st2.objs.get? rs.1).getD ⟨"", []⟩
      match (generateWithFallback b sess).1 with
      | .ok result =>
        (.ok result.text result.modelUsed result.fromFallback sess.id,
         pushTurn st2 rs.1 ⟨Role.assistant, result.text⟩)
      | .error e =>
        (.serverError
          (if e = "" then
            "Unexpected error in /api/upload (likely file too large or model timeout)."
          else e), st2)

/- ---------------------------------------------------------------------
Response Normalizer properties.
--------------------------------------------------------------------- -/

/-- A non-nullish receiver never throws on property access. -/
lemma getField_isOk (c : JSVal) (k : String) (h : nullish c = false) :
    ∃ v, getField c k = Except.ok v := by
  cases c with
  | undefined => simp [nullish] at h
  | null => simp [nullish] at h
  | bool b => exact ⟨.undefined, rfl⟩
  | num n => exact ⟨.undefined, rfl⟩
  | str s => exact ⟨.undefined, rfl⟩
  | arr xs => exact ⟨.undefined, rfl⟩
  | obj fs => exact ⟨_, rfl⟩

/-- A non-nullish content part never makes the inner loop body throw. -/
lemma partChunk_isOk (c : JSVal) (h : nullish c = false) :
    ∃ l, partChunk c = Except.ok l := by
  obtain ⟨v, hv⟩ := getField_isOk c "text" h
  obtain ⟨w, hw⟩ := getField_isOk c "output_text" h
  simp only [partChunk, hv, hw]
  split
  · exact ⟨_, rfl⟩
  · split
    · exact ⟨_, rfl⟩
    · exact ⟨_, rfl⟩

/-- A content-part list of non-nullish parts never makes the inner loop
throw. -/
lemma partsChunks_isOk : ∀ parts : List JSVal,
    (∀ c ∈ parts, nullish c = false) → ∃ l, partsChunks parts = Except.ok l
  | [], _ => ⟨[], rfl⟩
  | c :: cs, h => by
    obtain ⟨l1, h1⟩ := partChunk_isOk c (h c (List.mem_cons_self c cs))
    obtain ⟨l2, h2⟩ :=
      partsChunks_isOk cs (fun x hx => h x (List.mem_cons_of_mem c hx))
    exact ⟨l1 ++ l2, by unfold partsChunks; rw [h1, h2]⟩

/-- An output item is within the tolerated shapes when it is falsy
(skipped by the loop) or its content, if an array, holds no nullish part. -/
def itemOk (item : JSVal) : Bool :=
  !truthy item ||
    (match getFieldP item "content" with
     | .arr parts => parts.all (fun c => !nullish c)
     | _ => true)

/-- The tolerated result shapes of the claim: a falsy result, a result
whose output field is absent or falsy (which covers both the top-level
convenience-text-field shape and the no-recognized-shape case), or an
output array of tolerated items. -/
def toleratedShape (resp : JSVal) : Bool :=
  !truthy resp ||
    (let output := getFieldP resp "output"
     if !truthy output then true
     else
       match output with
       | .arr items => items.all itemOk
       | _ => false)

/-- The shape in which no output array is recognized: the result or its
output field is falsy. -/
def noOutputShape (resp : JSVal) : Bool :=
  !truthy resp || !truthy (getFieldP resp "output")

/-- A tolerated item never makes the outer loop body throw. -/
lemma itemChunks_isOk (item : JSVal) (h : itemOk item = true) :
    ∃ l, itemChunks item = Except.ok l := by
  by_cases ht : truthy item = true
  · unfold itemOk at h
    rw [ht] at h
    simp only [Bool.not_true, Bool.false_or] at h
    cases hc : getFieldP item "content" with
    | arr parts =>
      rw [hc] at h
      have hall : ∀ c ∈ parts, nullish c = false := by
        intro c hcmem
        have := List.all_eq_true.mp h c hcmem
        simpa using this
      obtain ⟨l, hl⟩ := partsChunks_isOk parts hall
      simp only [itemChunks, ht, hc, hl, Bool.not_true, Bool.false_eq_true,
        if_false]
      exact ⟨_, rfl⟩
    | undefined => simp only [itemChunks, ht, hc]; exact ⟨_, rfl⟩
    | null => simp only [itemChunks, ht, hc]; exact ⟨_, rfl⟩
    | bool b => simp only [itemChunks, ht, hc]; exact ⟨_, rfl⟩
    | num n => simp only [itemChunks, ht, hc]; exact ⟨_, rfl⟩
    | str s => simp only [itemChunks, ht, hc]; exact ⟨_, rfl⟩
    | obj fs => simp only [itemChunks, ht, hc]; exact ⟨_, rfl⟩
  · simp only [Bool.not_eq_true] at ht
    simp [itemChunks, ht]

/-- A list of tolerated items never makes the outer loop throw. -/
lemma itemsChunks_isOk : ∀ items : List JSVal,
    (∀ i ∈ items, itemOk i = true) → ∃ l, itemsChunks items = Except.ok l
  | [], _ => ⟨[], rfl⟩
  | i :: is', h => by
    obtain ⟨l1, h1⟩ := itemChunks_isOk i (h i (List.mem_cons_self i is'))
    obtain ⟨l2, h2⟩ :=
      itemsChunks_isOk is' (fun x hx => h x (List.mem_cons_of_mem i hx))
    exact ⟨l1 ++ l2, by unfold itemsChunks; rw [h1, h2]⟩

/-- C6 (amended): extractText does not throw on any of the tolerated
shapes — an array of output items with nested content parts carrying text
under varying key names (any non-nullish parts), a single convenience
text field at top level, or an absent/falsy output field — and when the
output field is absent or falsy it returns the empty string rather than
raising. -/
theorem extractText_no_throw_on_tolerated (resp : JSVal) :
    (toleratedShape resp = true →
      ∃ s, extractTextFromResponse resp = Except.ok s) ∧
    (noOutputShape resp = true →
      extractTextFromResponse resp = Except.ok "") := by
  constructor
  · intro h
    unfold toleratedShape at h
    by_cases hr : truthy resp = true
    · rw [hr] at h
      simp only [Bool.not_true, Bool.false_or] at h
      by_cases ho : truthy (getFieldP resp "output") = true
      · rw [if_neg (by simp [ho])] at h
        cases houtput : getFieldP resp "output" with
        | arr items =>
          rw [houtput] at h
          have hall : ∀ i ∈ items, itemOk i = true := List.all_eq_true.mp h
          obtain ⟨cs, hcs⟩ := itemsChunks_isOk items hall
          simp only [extractTextFromResponse, hr, houtput, Bool.not_true,
            Bool.false_eq_true, if_false, jsIterate, hcs]
          exact ⟨_, rfl⟩
        | undefined => rw [houtput] at h; simp at h
        | null => rw [houtput] at h; simp at h
        | bool b => rw [houtput] at h; simp at h
        | num n => rw [houtput] at h; simp at h
        | str s => rw [houtput] at h; simp at h
        | obj fs => rw [houtput] at h; simp at h
      · simp only [Bool.not_eq_true] at ho
        refine ⟨"", ?_⟩
        simp [extractTextFromResponse, hr, ho]
    · simp only [Bool.not_eq_true] at hr
      exact ⟨"", by simp [extractTextFromResponse, hr]⟩
  · intro h
    unfold noOutputShape at h
    by_cases hr : truthy resp = true
    · rw [hr] at h
      simp only [Bool.not_true, Bool.false_or, Bool.not_eq_true'] at h
      simp [extractTextFromResponse, hr, h]
    · simp only [Bool.not_eq_true] at hr
      simp [extractTextFromResponse, hr]

/-- C6 counterexample: the value with a truthy but non-iterable output
field exposes none of the recognized shapes (no output-item array, no
top-level convenience text field), yet extractText raises a `TypeError`
instead of returning the empty string. -/
theorem extractText_nonarray_output_throws :
    extractTextFromResponse (JSVal.obj [("output", JSVal.num 5)]) =
      Except.error "TypeError: value is not iterable" ∧
    extractTextFromResponse (JSVal.obj [("output", JSVal.num 5)]) ≠
      Except.ok "" :=
  ⟨rfl, fun hcontra => by
    rw [show extractTextFromResponse (JSVal.obj [("output", JSVal.num 5)]) =
        Except.error "TypeError: value is not iterable" from rfl] at hcontra
    exact Except.noConfusion hcontra⟩

/-- Witness for the tolerated-shape theorem at a concrete envelope with a
skipped falsy item and one text-bearing content part. -/
theorem extractText_no_throw_on_tolerated_witness :
    toleratedShape (JSVal.obj [("output", JSVal.arr [JSVal.null,
        JSVal.obj [("content", JSVal.arr [JSVal.obj [("text",
        JSVal.str "hi")]])]])]) = true ∧
    ∃ s, extractTextFromResponse (JSVal.obj [("output", JSVal.arr [JSVal.null,
        JSVal.obj [("content", JSVal.arr [JSVal.obj [("text",
        JSVal.str "hi")]])]])]) = Except.ok s :=
  ⟨by decide,
   (extractText_no_throw_on_tolerated _).1 (by decide)⟩

/-- An output item of the canonical shape: one content part carrying a
text field. -/
def mkTextItem (t : String) : JSVal :=
  .obj [("content", .arr [.obj [("text", .str t)]])]

/-- A result envelope whose output is an array of canonical text items. -/
def mkOutputResp (texts : List String) : JSVal :=
  .obj [("output", .arr (texts.map mkTextItem))]

/-- The outer loop collects the canonical items in source order. -/
lemma itemsChunks_mkTextItem : ∀ texts : List String,
    itemsChunks (texts.map mkTextItem) = Except.ok texts
  | [] => rfl
  | t :: ts => by
    have ih := itemsChunks_mkTextItem ts
    have h1 : itemChunks (mkTextItem t) = Except.ok [t] := rfl
    show itemsChunks (mkTextItem t :: ts.map mkTextItem) = Except.ok (t :: ts)
    unfold itemsChunks
    rw [h1, ih]
    rfl

/-- C7: extractText concatenates the text fields of the output items in
source order, with no reordering and no deduplication; in particular the
envelope with three text parts "a", "b", "c" yields "abc". -/
theorem extractText_concat_order :
    (∀ texts : List String,
      extractTextFromResponse (mkOutputResp texts) =
        Except.ok (jsTrim (String.join texts))) ∧
    extractTextFromResponse (mkOutputResp ["a", "b", "c"]) =
      Except.ok "abc" := by
  constructor
  · intro texts
    have h := itemsChunks_mkTextItem texts
    rw [show extractTextFromResponse (mkOutputResp texts) =
        (match itemsChunks (texts.map mkTextItem) with
         | .error e => .error e
         | .ok chunks => .ok (jsTrim (String.join chunks))) from rfl]
    rw [h]
  · rfl

/-- C8 counterexample: a result exposing only the top-level convenience
text field (no output field at all) makes extractText return the empty
string, not the field's text. -/
theorem extractText_convenience_only_counterexample :
    extractTextFromResponse
        (JSVal.obj [("output_text", JSVal.obj [("text", JSVal.str "hello")])]) =
      Except.ok "" ∧
    ("" : String) ≠ "hello" :=
  ⟨rfl, by decide⟩

/-- C8 (amended): a result exposing only the top-level convenience text
field returns the empty string, because the convenience field is only
consulted when the output field is also truthy; alongside a (possibly
empty) output array the field's text is returned, trimmed. -/
theorem extractText_convenience_requires_output (s : String) :
    extractTextFromResponse
        (JSVal.obj [("output_text", JSVal.obj [("text", JSVal.str s)])]) =
      Except.ok "" ∧
    extractTextFromResponse
        (JSVal.obj [("output", JSVal.arr []),
          ("output_text", JSVal.obj [("text", JSVal.str s)])]) =
      Except.ok (jsTrim s) :=
  ⟨rfl, rfl⟩

/- ---------------------------------------------------------------------
Fallback Orchestrator properties.
--------------------------------------------------------------------- -/

/-- A non-nullish completion never makes the content chain throw. -/
lemma chainContent_isOk (comp : JSVal) (h : nullish comp = false) :
    ∃ v, chainContent comp = Except.ok v := by
  obtain ⟨c, hc⟩ := getField_isOk comp "choices" h
  simp only [chainContent, hc]
  exact ⟨_, rfl⟩

/-- A successful secondary call on a non-nullish completion yields a
fallback-tagged result carrying the secondary tier identifier. -/
lemma secondaryStep_ok (b : Backend) (msgs : List Turn) (le : Option String)
    (comp : JSVal) (hcomp : b.chatCompletionsCreate msgs = Except.ok comp)
    (hnn : nullish comp = false) :
    ∃ r, secondaryStep b msgs le = Except.ok r ∧
      r.fromFallback = true ∧ r.modelUsed = FALLBACK_MODEL := by
  obtain ⟨v, hv⟩ := chainContent_isOk comp hnn
  simp only [secondaryStep, hcomp, hv]
  exact ⟨_, rfl, rfl, rfl⟩

/-- When both primary attempts fail, the orchestrator runs exactly the
secondary step, with a remembered last error equal to the attempt-2
raised fault, or to the synthesized empty-output error when attempt 2
normalized to empty text. -/
lemma generateWithFallback_secondary (b : Backend) (session : Session)
    (h1 : attemptFailedB (attemptResult b (responsesInputOf session) 1) = true)
    (h2 : attemptFailedB (attemptResult b (responsesInputOf session) 2) = true) :
    ∃ le, generateWithFallback b session =
      (secondaryStep b (chatMessagesOf session) (some le),
        [.primaryAttempt 1, .primaryAttempt 2, .secondary]) ∧
      (∀ e2, attemptResult b (responsesInputOf session) 2 = Except.error e2 →
        le = e2) ∧
      (attemptResult b (responsesInputOf session) 2 = Except.ok "" →
        le = emptyOutputMsg) := by
  have hstep : ∃ le, attempt2Step b session =
      (secondaryStep b (chatMessagesOf session) (some le),
        [.primaryAttempt 1, .primaryAttempt 2, .secondary]) ∧
      (∀ e2, attemptResult b (responsesInputOf session) 2 = Except.error e2 →
        le = e2) ∧
      (attemptResult b (responsesInputOf session) 2 = Except.ok "" →
        le = emptyOutputMsg) := by
    cases ha2 : attemptResult b (responsesInputOf session) 2 with
    | ok t2 =>
      rw [ha2] at h2
      have ht2 : t2 = "" := by simpa [attemptFailedB] using h2
      subst ht2
      refine ⟨emptyOutputMsg, ?_, ?_, ?_⟩
      · unfold attempt2Step
        rw [ha2]
        rfl
      · intro e2 he2
        exact Except.noConfusion he2
      · intro _
        rfl
    | error e2 =>
      refine ⟨e2, ?_, ?_, ?_⟩
      · unfold attempt2Step
        rw [ha2]
      · intro e2' he2'
        exact Except.error.inj he2'
      · intro hok
        exact Except.noConfusion hok
  obtain ⟨le, hs1, hs2, hs3⟩ := hstep
  refine ⟨le, ?_, hs2, hs3⟩
  cases ha1 : attemptResult b (responsesInputOf session) 1 with
  | ok t1 =>
    rw [ha1] at h1
    have ht1 : t1 = "" := by simpa [attemptFailedB] using h1
    subst ht1
    rw [show generateWithFallback b session = attempt2Step b session from by
      unfold generateWithFallback; rw [ha1]; rfl]
    exact hs1
  | error e1 =>
    rw [show generateWithFallback b session = attempt2Step b session from by
      unfold generateWithFallback; rw [ha1]]
    exact hs1

/-- C1: when both primary attempts fail (raised fault or empty normalized
text) and the secondary call succeeds, the result is fallback-tagged and
carries the secondary tier identifier; when a primary attempt normalizes
to non-empty text, the orchestrator returns immediately with
`fromFallback = false` and the secondary tier is never invoked. -/
theorem generateWithFallback_tier_protocol (b : Backend) (session : Session) :
    ((attemptFailedB (attemptResult b (responsesInputOf session) 1) = true ∧
      attemptFailedB (attemptResult b (responsesInputOf session) 2) = true ∧
      ∃ comp, b.chatCompletionsCreate (chatMessagesOf session) = Except.ok comp ∧
        nullish comp = false) →
      ∃ r, (generateWithFallback b session).1 = Except.ok r ∧
        r.fromFallback = true ∧ r.modelUsed = FALLBACK_MODEL) ∧
    (∀ t, attemptResult b (responsesInputOf session) 1 = Except.ok t → t ≠ "" →
      (generateWithFallback b session).1 =
        Except.ok ⟨JSVal.str t, CODE_MODEL, false⟩ ∧
      TierCall.secondary ∉ (generateWithFallback b session).2) ∧
    (∀ t, attemptFailedB (attemptResult b (responsesInputOf session) 1) = true →
      attemptResult b (responsesInputOf session) 2 = Except.ok t → t ≠ "" →
      (generateWithFallback b session).1 =
        Except.ok ⟨JSVal.str t, CODE_MODEL, false⟩ ∧
      TierCall.secondary ∉ (generateWithFallback b session).2) := by
  refine ⟨?_, ?_, ?_⟩
  · rintro ⟨h1, h2, comp, hcomp, hnn⟩
    obtain ⟨le, hgen, -, -⟩ := generateWithFallback_secondary b session h1 h2
    obtain ⟨r, hr, hf, hm⟩ :=
      secondaryStep_ok b (chatMessagesOf session) (some le) comp hcomp hnn
    refine ⟨r, ?_, hf, hm⟩
    rw [hgen]
    exact hr
  · intro t h1 hne
    have hgen : generateWithFallback b session =
        (Except.ok ⟨JSVal.str t, CODE_MODEL, false⟩, [TierCall.primaryAttempt 1]) := by
      unfold generateWithFallback
      simp only [h1]
      rw [if_neg hne]
    rw [hgen]
    exact ⟨rfl, by simp⟩
  · intro t h1 h2 hne
    have hstep : attempt2Step b session =
        (Except.ok ⟨JSVal.str t, CODE_MODEL, false⟩,
          [TierCall.primaryAttempt 1, TierCall.primaryAttempt 2]) := by
      unfold attempt2Step
      simp only [h2]
      rw [if_neg hne]
    cases ha1 : attemptResult b (responsesInputOf session) 1 with
    | ok t1 =>
      rw [ha1] at h1
      have ht1 : t1 = "" := by simpa [attemptFailedB] using h1
      subst ht1
      rw [show generateWithFallback b session = attempt2Step b session from by
        unfold generateWithFallback; rw [ha1]; rfl]
      rw [hstep]
      exact ⟨rfl, by simp⟩
    | error e1 =>
      rw [show generateWithFallback b session = attempt2Step b session from by
        unfold generateWithFallback; rw [ha1]]
      rw [hstep]
      exact ⟨rfl, by simp⟩

/-- Witness for the tier protocol at a backend whose primary tier raises
on both attempts and whose secondary tier answers with a completion
carrying content. -/
theorem generateWithFallback_tier_protocol_witness :
    (attemptFailedB (attemptResult
        ⟨fun _ _ => Except.error "primary down",
         fun _ => Except.ok (JSVal.obj [("choices", JSVal.arr [JSVal.obj
           [("message", JSVal.obj [("content", JSVal.str "ok text")])]])])⟩
        (responsesInputOf ⟨"s1", []⟩) 1) = true) ∧
    ∃ r, (generateWithFallback
        ⟨fun _ _ => Except.error "primary down",
         fun _ => Except.ok (JSVal.obj [("choices", JSVal.arr [JSVal.obj
           [("message", JSVal.obj [("content", JSVal.str "ok text")])]])])⟩
        ⟨"s1", []⟩).1 = Except.ok r ∧
      r.fromFallback = true ∧ r.modelUsed = FALLBACK_MODEL :=
  ⟨rfl,
   (generateWithFallback_tier_protocol _ _).1
     ⟨rfl, rfl, _, rfl, rfl⟩⟩

/-- C2 counterexample: with a primary tier that returns an empty envelope
on both attempts (never raising) and a secondary tier that raises
"secondary boom", the orchestrator propagates the synthesized
empty-output error of the primary tier, not the secondary fault that the
claim promises. -/
theorem generateWithFallback_empty_primary_counterexample :
    (generateWithFallback
        ⟨fun _ _ => Except.ok (JSVal.obj [("output", JSVal.arr [])]),
         fun _ => Except.error "secondary boom"⟩ ⟨"s2", []⟩).1 =
      Except.error emptyOutputMsg ∧
    (generateWithFallback
        ⟨fun _ _ => Except.ok (JSVal.obj [("output", JSVal.arr [])]),
         fun _ => Except.error "secondary boom"⟩ ⟨"s2", []⟩).1 ≠
      Except.error "secondary boom" :=
  ⟨rfl, fun hcontra => by
    rw [show (generateWithFallback
        ⟨fun _ _ => Except.ok (JSVal.obj [("output", JSVal.arr [])]),
         fun _ => Except.error "secondary boom"⟩ ⟨"s2", []⟩).1 =
      Except.error emptyOutputMsg from rfl] at hcontra
    exact absurd (Except.error.inj hcontra) (by decide)⟩

/-- C2 (amended): when both primary attempts fail and the secondary tier
raises a fault, the orchestrator propagates the primary tier's last
remembered error — the fault raised by attempt 2, or the synthesized
empty-output error when attempt 2 returned empty text; a remembered
primary error always exists when the secondary runs, so the secondary
fault is never the one propagated. -/
theorem generateWithFallback_propagates_primary_error (b : Backend)
    (session : Session) (f : String)
    (h1 : attemptFailedB (attemptResult b (responsesInputOf session) 1) = true)
    (hsec : b.chatCompletionsCreate (chatMessagesOf session) = Except.error f) :
    (∀ e2, attemptResult b (responsesInputOf session) 2 = Except.error e2 →
      (generateWithFallback b session).1 = Except.error e2) ∧
    (attemptResult b (responsesInputOf session) 2 = Except.ok "" →
      (generateWithFallback b session).1 = Except.error emptyOutputMsg) := by
  constructor
  · intro e2 he2
    have h2 : attemptFailedB (attemptResult b (responsesInputOf session) 2) = true := by
      rw [he2]
      rfl
    obtain ⟨le, hgen, hle2, -⟩ := generateWithFallback_secondary b session h1 h2
    rw [hgen]
    show secondaryStep b (chatMessagesOf session) (some le) = Except.error e2
    unfold secondaryStep
    rw [hsec, hle2 e2 he2]
    rfl
  · intro he2
    have h2 : attemptFailedB (attemptResult b (responsesInputOf session) 2) = true := by
      rw [he2]
      rfl
    obtain ⟨le, hgen, -, hle3⟩ := generateWithFallback_secondary b session h1 h2
    rw [hgen]
    show secondaryStep b (chatMessagesOf session) (some le) =
      Except.error emptyOutputMsg
    unfold secondaryStep
    rw [hsec, hle3 he2]
    rfl

/-- Witness for the error-propagation theorem at a backend whose primary
tier raises "primary down" on both attempts and whose secondary tier
raises "secondary boom". -/
theorem generateWithFallback_propagates_primary_error_witness :
    (attemptFailedB (attemptResult
        ⟨fun _ _ => Except.error "primary down",
         fun _ => Except.error "secondary boom"⟩
        (responsesInputOf ⟨"s3", []⟩) 1) = true) ∧
    (generateWithFallback
        ⟨fun _ _ => Except.error "primary down",
         fun _ => Except.error "secondary boom"⟩ ⟨"s3", []⟩).1 =
      Except.error "primary down" :=
  ⟨rfl,
   (generateWithFallback_propagates_primary_error
     ⟨fun _ _ => Except.error "primary down",
      fun _ => Except.error "secondary boom"⟩ ⟨"s3", []⟩ "secondary boom"
     rfl rfl).1 "primary down" rfl⟩

/-- C3: when the secondary tier's call returns without raising and the
extracted content field is missing (`undefined`), `null`, or the empty
string, the resulting text is the fixed non-empty sentinel. -/
theorem generateWithFallback_sentinel_on_empty (b : Backend)
    (session : Session) (comp v : JSVal)
    (h1 : attemptFailedB (attemptResult b (responsesInputOf session) 1) = true)
    (h2 : attemptFailedB (attemptResult b (responsesInputOf session) 2) = true)
    (hcomp : b.chatCompletionsCreate (chatMessagesOf session) = Except.ok comp)
    (hcontent : chainContent comp = Except.ok v)
    (hdeg : v = JSVal.undefined ∨ v = JSVal.null ∨ v = JSVal.str "") :
    (generateWithFallback b session).1 =
      Except.ok ⟨JSVal.str noContentSentinel, FALLBACK_MODEL, true⟩ ∧
    noContentSentinel ≠ "" := by
  obtain ⟨le, hgen, -, -⟩ := generateWithFallback_secondary b session h1 h2
  refine ⟨?_, by decide⟩
  rw [hgen]
  show secondaryStep b (chatMessagesOf session) (some le) =
    Except.ok ⟨JSVal.str noContentSentinel, FALLBACK_MODEL, true⟩
  simp only [secondaryStep, hcomp, hcontent]
  rcases hdeg with hv | hv | hv <;> subst hv <;> rfl

/-- Witness for the sentinel theorem at a backend whose primary tier
raises and whose secondary tier answers a completion with no choices. -/
theorem generateWithFallback_sentinel_on_empty_witness :
    chainContent (JSVal.obj [("id", JSVal.str "cmpl-1")]) =
      Except.ok JSVal.undefined ∧
    (generateWithFallback
        ⟨fun _ _ => Except.error "primary down",
         fun _ => Except.ok (JSVal.obj [("id", JSVal.str "cmpl-1")])⟩
        ⟨"s4", []⟩).1 =
      Except.ok ⟨JSVal.str noContentSentinel, FALLBACK_MODEL, true⟩ :=
  ⟨rfl,
   (generateWithFallback_sentinel_on_empty
     ⟨fun _ _ => Except.error "primary down",
      fun _ => Except.ok (JSVal.obj [("id", JSVal.str "cmpl-1")])⟩
     ⟨"s4", []⟩ (JSVal.obj [("id", JSVal.str "cmpl-1")]) JSVal.undefined
     rfl rfl rfl rfl (Or.inl rfl)).1⟩

/- ---------------------------------------------------------------------
Content Triage properties.
--------------------------------------------------------------------- -/

/-- Dropping whitespace from an appended list stops inside the first part
when that part does not trim to nothing. -/
lemma dropWhile_ws_append (l1 l2 : List Char)
    (h : l1.dropWhile Char.isWhitespace ≠ []) :
    (l1 ++ l2).dropWhile Char.isWhitespace =
      l1.dropWhile Char.isWhitespace ++ l2 := by
  rw [List.dropWhile_append, if_neg (by simpa [List.isEmpty_iff] using h)]

/-- Trimming a sandwich `a ++ (m ++ b)` whose bread does not trim to
nothing leaves the middle untouched: the result is the trimmed `a`, then
`m` verbatim, then the trimmed `b`. -/
lemma jsTrim_sandwich (a m b : String)
    (ha : a.data.dropWhile Char.isWhitespace ≠ [])
    (hb : b.data.reverse.dropWhile Char.isWhitespace ≠ []) :
    jsTrim (a ++ (m ++ b)) =
      String.mk (a.data.dropWhile Char.isWhitespace) ++
        (m ++ String.mk ((b.data.reverse.dropWhile Char.isWhitespace).reverse)) := by
  apply String.ext
  show ((((a ++ (m ++ b)).data.dropWhile
      Char.isWhitespace).reverse.dropWhile Char.isWhitespace).reverse) = _
  rw [String.data_append, String.data_append]
  rw [dropWhile_ws_append _ _ ha]
  rw [List.reverse_append, List.reverse_append, List.append_assoc]
  rw [dropWhile_ws_append _ _ hb]
  simp [List.reverse_append, List.append_assoc]

/-- Appending cannot empty a whitespace-trim that is already non-empty. -/
lemma dropWhile_ws_ne_nil_left (l1 l2 : List Char)
    (h : l1.dropWhile Char.isWhitespace ≠ []) :
    (l1 ++ l2).dropWhile Char.isWhitespace ≠ [] := by
  rw [dropWhile_ws_append l1 l2 h]
  intro hc
  exact h (List.append_eq_nil.mp hc).1

/-- A run of spaces trims away entirely. -/
lemma dropWhile_ws_replicate_space (n : Nat) :
    (List.replicate n ' ').dropWhile Char.isWhitespace = [] := by
  induction n with
  | zero => rfl
  | succ n ih =>
    rw [List.replicate_succ, List.dropWhile_cons_of_pos (by decide), ih]

/-- Trimming a string of spaces yields the empty string. -/
lemma jsTrim_replicate_space (n : Nat) :
    jsTrim (String.mk (List.replicate n ' ')) = "" := by
  unfold jsTrim
  rw [show (String.mk (List.replicate n ' ')).toList =
      List.replicate n ' ' from rfl]
  rw [dropWhile_ws_replicate_space, List.reverse_nil, List.dropWhile_nil,
    List.reverse_nil]

/-- A run of a non-whitespace character is untouched by trimming. -/
lemma jsTrim_replicate_nonws (n : Nat) :
    jsTrim (String.mk (List.replicate (n + 1) 'a')) =
      String.mk (List.replicate (n + 1) 'a') := by
  have hd : (List.replicate (n + 1) 'a').dropWhile Char.isWhitespace =
      List.replicate (n + 1) 'a' := by
    rw [List.replicate_succ, List.dropWhile_cons_of_neg (by decide),
      ← List.replicate_succ]
  unfold jsTrim
  rw [show (String.mk (List.replicate (n + 1) 'a')).toList =
      List.replicate (n + 1) 'a' from rfl]
  rw [hd, List.reverse_replicate, hd, List.reverse_replicate]

/-- C5 (amended): usable text content (non-empty after trimming) within
the 200000-character ceiling is embedded verbatim and in full in the
review/refactor instruction, together with the user's instructions or the
default text: the triage output equals the within-budget template, and it
decomposes as some prefix, the exact content, and some suffix. -/
theorem messageForModel_within_budget (fn : String) (ft : Option String)
    (hs : String) (content : String) (instr : Option String)
    (h1 : 0 < (jsTrim content).length) (h2 : content.length ≤ 200000) :
    messageForModel fn ft hs (some content) instr =
      jsTrim ("\nThe user uploaded a code file for review/refactor.\n\nFile name: "
        ++ fn ++ "\nMIME type: " ++ orDefault ft "unknown"
        ++ "\nSize: " ++ hs
        ++ "\n\nHere is the full (or near full) content of the file:\n\n"
        ++ content
        ++ "\n\nUSER REQUEST / CONTEXT:\n"
        ++ orDefault instr DEFAULT_REFACTOR_INSTRUCTIONS
        ++ "\n\nPlease refactor and improve this code. Output the full improved version, not just bullet points.\n      ") ∧
    ∃ pre post, messageForModel fn ft hs (some content) instr =
      pre ++ (content ++ post) := by
  have heq : messageForModel fn ft hs (some content) instr =
      jsTrim ("\nThe user uploaded a code file for review/refactor.\n\nFile name: "
        ++ fn ++ "\nMIME type: " ++ orDefault ft "unknown"
        ++ "\nSize: " ++ hs
        ++ "\n\nHere is the full (or near full) content of the file:\n\n"
        ++ content
        ++ "\n\nUSER REQUEST / CONTEXT:\n"
        ++ orDefault instr DEFAULT_REFACTOR_INSTRUCTIONS
        ++ "\n\nPlease refactor and improve this code. Output the full improved version, not just bullet points.\n      ") := by
    simp only [messageForModel]
    rw [if_pos h1, if_pos h2]
  refine ⟨heq, ?_⟩
  rw [heq]
  have hassoc :
      ("\nThe user uploaded a code file for review/refactor.\n\nFile name: "
        ++ fn ++ "\nMIME type: " ++ orDefault ft "unknown"
        ++ "\nSize: " ++ hs
        ++ "\n\nHere is the full (or near full) content of the file:\n\n"
        ++ content
        ++ "\n\nUSER REQUEST / CONTEXT:\n"
        ++ orDefault instr DEFAULT_REFACTOR_INSTRUCTIONS
        ++ "\n\nPlease refactor and improve this code. Output the full improved version, not just bullet points.\n      ") =
      ("\nThe user uploaded a code file for review/refactor.\n\nFile name: "
        ++ fn ++ "\nMIME type: " ++ orDefault ft "unknown"
        ++ "\nSize: " ++ hs
        ++ "\n\nHere is the full (or near full) content of the file:\n\n") ++
      (content ++
        ("\n\nUSER REQUEST / CONTEXT:\n"
          ++ orDefault instr DEFAULT_REFACTOR_INSTRUCTIONS
          ++ "\n\nPlease refactor and improve this code. Output the full improved version, not just bullet points.\n      ")) := by
    simp only [String.append_assoc]
  rw [hassoc]
  rw [jsTrim_sandwich _ content _
    (by
      simp only [String.data_append, List.append_assoc]
      exact dropWhile_ws_ne_nil_left _ _ (by decide))
    (by
      simp only [String.data_append, List.reverse_append, List.append_assoc]
      exact dropWhile_ws_ne_nil_left _ _ (by decide))]
  exact ⟨_, _, rfl⟩

/-- C4 (amended): usable text content (non-empty after trimming) longer
than the 200000-character ceiling is embedded as exactly the first
100000 characters (head) and the last 100000 characters (tail), with a
marker whose omitted-character count is the content length minus the
ceiling: the triage output equals the over-budget template, and the
marker-head-tail block appears verbatim inside it. -/
theorem messageForModel_over_budget (fn : String) (ft : Option String)
    (hs : String) (content : String) (instr : Option String)
    (h1 : 0 < (jsTrim content).length) (h2 : 200000 < content.length) :
    messageForModel fn ft hs (some content) instr =
      jsTrim ("\nThe user uploaded a very large code file for review/refactor.\n\nFile name: "
        ++ fn ++ "\nMIME type: " ++ orDefault ft "unknown"
        ++ "\nSize: " ++ hs
        ++ "\nOriginal length (chars): " ++ toString content.length
        ++ "\nNOTE: Content has been truncated to fit within model limits. Approximately "
        ++ toString ((content.length : Int) - 200000)
        ++ " characters omitted.\n\n--- BEGIN TRUNCATED CONTENT (HEAD) ---\n"
        ++ jsSliceTo content 100000
        ++ "\n--- MIDDLE OMITTED ---\n"
        ++ jsSliceNeg content 100000
        ++ "\n--- END TRUNCATED CONTENT ---\n\nUSER REQUEST / CONTEXT:\n"
        ++ orDefault instr DEFAULT_REFACTOR_INSTRUCTIONS
        ++ "\n\nPlease refactor and improve this code. Focus on architecture, clarity, and obvious issues based on the visible portions. Output full revised code where possible.\n      ") ∧
    ∃ pre post, messageForModel fn ft hs (some content) instr =
      pre ++
        (("\nNOTE: Content has been truncated to fit within model limits. Approximately "
          ++ toString ((content.length : Int) - 200000)
          ++ " characters omitted.\n\n--- BEGIN TRUNCATED CONTENT (HEAD) ---\n"
          ++ jsSliceTo content 100000
          ++ "\n--- MIDDLE OMITTED ---\n"
          ++ jsSliceNeg content 100000) ++ post) := by
  have hnle : ¬ content.length ≤ 200000 := by omega
  have heq : messageForModel fn ft hs (some content) instr =
      jsTrim ("\nThe user uploaded a very large code file for review/refactor.\n\nFile name: "
        ++ fn ++ "\nMIME type: " ++ orDefault ft "unknown"
        ++ "\nSize: " ++ hs
        ++ "\nOriginal length (chars): " ++ toString content.length
        ++ "\nNOTE: Content has been truncated to fit within model limits. Approximately "
        ++ toString ((content.length : Int) - 200000)
        ++ " characters omitted.\n\n--- BEGIN TRUNCATED CONTENT (HEAD) ---\n"
        ++ jsSliceTo content 100000
        ++ "\n--- MIDDLE OMITTED ---\n"
        ++ jsSliceNeg content 100000
        ++ "\n--- END TRUNCATED CONTENT ---\n\nUSER REQUEST / CONTEXT:\n"
        ++ orDefault instr DEFAULT_REFACTOR_INSTRUCTIONS
        ++ "\n\nPlease refactor and improve this code. Focus on architecture, clarity, and obvious issues based on the visible portions. Output full revised code where possible.\n      ") := by
    simp only [messageForModel]
    rw [if_pos h1, if_neg hnle]
    norm_num [MAX_CHARS]
  refine ⟨heq, ?_⟩
  rw [heq]
  have hassoc :
      ("\nThe user uploaded a very large code file for review/refactor.\n\nFile name: "
        ++ fn ++ "\nMIME type: " ++ orDefault ft "unknown"
        ++ "\nSize: " ++ hs
        ++ "\nOriginal length (chars): " ++ toString content.length
        ++ "\nNOTE: Content has been truncated to fit within model limits. Approximately "
        ++ toString ((content.length : Int) - 200000)
        ++ " characters omitted.\n\n--- BEGIN TRUNCATED CONTENT (HEAD) ---\n"
        ++ jsSliceTo content 100000
        ++ "\n--- MIDDLE OMITTED ---\n"
        ++ jsSliceNeg content 100000
        ++ "\n--- END TRUNCATED CONTENT ---\n\nUSER REQUEST / CONTEXT:\n"
        ++ orDefault instr DEFAULT_REFACTOR_INSTRUCTIONS
        ++ "\n\nPlease refactor and improve this code. Focus on architecture, clarity, and obvious issues based on the visible portions. Output full revised code where possible.\n      ") =
      ("\nThe user uploaded a very large code file for review/refactor.\n\nFile name: "
        ++ fn ++ "\nMIME type: " ++ orDefault ft "unknown"
        ++ "\nSize: " ++ hs
        ++ "\nOriginal length (chars): " ++ toString content.length) ++
      ((("\nNOTE: Content has been truncated to fit within model limits. Approximately "
          ++ toString ((content.length : Int) - 200000)
          ++ " characters omitted.\n\n--- BEGIN TRUNCATED CONTENT (HEAD) ---\n"
          ++ jsSliceTo content 100000
          ++ "\n--- MIDDLE OMITTED ---\n"
          ++ jsSliceNeg content 100000)) ++
        ("\n--- END TRUNCATED CONTENT ---\n\nUSER REQUEST / CONTEXT:\n"
          ++ orDefault instr DEFAULT_REFACTOR_INSTRUCTIONS
          ++ "\n\nPlease refactor and improve this code. Focus on architecture, clarity, and obvious issues based on the visible portions. Output full revised code where possible.\n      ")) := by
    simp only [String.append_assoc]
  rw [hassoc]
  rw [jsTrim_sandwich _ _ _
    (by
      simp only [String.data_append, List.append_assoc]
      exact dropWhile_ws_ne_nil_left _ _ (by decide))
    (by
      simp only [String.data_append, List.reverse_append, List.append_assoc]
      exact dropWhile_ws_ne_nil_left _ _ (by decide))]
  exact ⟨_, _, rfl⟩

set_option maxRecDepth 8192 in
/-- C4 counterexample: a whitespace-only content of 200001 characters is
strictly longer than the ceiling, yet the triage takes the describe-only
branch (the trim check fails), whose output is shorter than 200000
characters and therefore cannot embed a 100000-character head segment and
a 100000-character tail segment. -/
theorem messageForModel_overlong_whitespace_counterexample :
    200000 < (String.mk (List.replicate 200001 ' ')).length ∧
    messageForModel "big.txt" none "unknown size"
        (some (String.mk (List.replicate 200001 ' '))) none =
      describeOnlyMessage "big.txt" none "unknown size" none ∧
    (describeOnlyMessage "big.txt" none "unknown size" none).length <
      200000 := by
  have hws : ¬ (0 < (jsTrim (String.mk (List.replicate 200001 ' '))).length) := by
    rw [jsTrim_replicate_space]
    simp
  refine ⟨by rw [String.length_mk, List.length_replicate]; decide, ?_, by decide⟩
  simp only [messageForModel]
  rw [if_neg hws]

set_option maxRecDepth 8192 in
/-- C5 counterexample: a one-space content is within the ceiling, yet the
triage takes the describe-only branch, whose output differs from the
within-budget review/refactor instruction the claim promises. -/
theorem messageForModel_tiny_whitespace_counterexample :
    (" ").length ≤ 200000 ∧
    messageForModel "a.js" none "unknown size" (some " ") none =
      describeOnlyMessage "a.js" none "unknown size" none ∧
    describeOnlyMessage "a.js" none "unknown size" none ≠
      jsTrim ("\nThe user uploaded a code file for review/refactor.\n\nFile name: "
        ++ "a.js" ++ "\nMIME type: " ++ "unknown" ++ "\nSize: " ++ "unknown size"
        ++ "\n\nHere is the full (or near full) content of the file:\n\n"
        ++ " " ++ "\n\nUSER REQUEST / CONTEXT:\n"
        ++ DEFAULT_REFACTOR_INSTRUCTIONS
        ++ "\n\nPlease refactor and improve this code. Output the full improved version, not just bullet points.\n      ") :=
  ⟨by decide, rfl, by decide⟩

/-- Witness for the over-budget theorem at a 200001-character run of a
non-whitespace character. -/
theorem messageForModel_over_budget_witness :
    (0 < (jsTrim (String.mk (List.replicate 200001 'a'))).length ∧
     200000 < (String.mk (List.replicate 200001 'a')).length) ∧
    ∃ pre post, messageForModel "big.js" none "unknown size"
        (some (String.mk (List.replicate 200001 'a'))) none =
      pre ++
        (("\nNOTE: Content has been truncated to fit within model limits. Approximately "
          ++ toString (((String.mk (List.replicate 200001 'a')).length : Int) - 200000)
          ++ " characters omitted.\n\n--- BEGIN TRUNCATED CONTENT (HEAD) ---\n"
          ++ jsSliceTo (String.mk (List.replicate 200001 'a')) 100000
          ++ "\n--- MIDDLE OMITTED ---\n"
          ++ jsSliceNeg (String.mk (List.replicate 200001 'a')) 100000) ++ post) := by
  have hj : jsTrim (String.mk (List.replicate 200001 'a')) =
      String.mk (List.replicate 200001 'a') := by
    have h := jsTrim_replicate_nonws 200000
    rw [show (200000 : Nat) + 1 = 200001 from rfl] at h
    exact h
  have h1 : 0 < (jsTrim (String.mk (List.replicate 200001 'a'))).length := by
    rw [hj, String.length_mk, List.length_replicate]
    decide
  have h2 : 200000 < (String.mk (List.replicate 200001 'a')).length := by
    rw [String.length_mk, List.length_replicate]
    decide
  exact ⟨⟨h1, h2⟩,
    (messageForModel_over_budget "big.js" none "unknown size" _ none h1 h2).2⟩

/-- Witness for the within-budget theorem at a small code snippet. -/
theorem messageForModel_within_budget_witness :
    (0 < (jsTrim "function add(a, b) return a plus b").length ∧
     ("function add(a, b) return a plus b").length ≤ 200000) ∧
    ∃ pre post, messageForModel "w.js" none "unknown size"
        (some "function add(a, b) return a plus b") none =
      pre ++ ("function add(a, b) return a plus b" ++ post) :=
  ⟨⟨by decide, by decide⟩,
   (messageForModel_within_budget "w.js" none "unknown size" _ none
     (by decide) (by decide)).2⟩

/- ---------------------------------------------------------------------
Session Store and handler properties.
--------------------------------------------------------------------- -/

/-- C9: for an identifier already known to the store, `getOrCreateSession`
returns the existing session reference (the very same object, not a
copy) and leaves the store unchanged, whatever fresh identifier would
have been generated; in particular a repeated call returns the same
reference again on the unchanged store. -/
theorem getOrCreateSession_idempotent (st : Store) (id : String) (r : Nat)
    (f1 f2 : String) (hid : id ≠ "")
    (hknown : List.lookup id st.refs = some r) :
    getOrCreateSession (some id) f1 st = (r, st) ∧
    getOrCreateSession (some id) f2
      (getOrCreateSession (some id) f1 st).2 = (r, st) := by
  have h1 : ∀ f : String, getOrCreateSession (some id) f st = (r, st) := by
    intro f
    simp only [getOrCreateSession, if_neg hid, hknown]
  refine ⟨h1 f1, ?_⟩
  rw [h1 f1]
  exact h1 f2

/-- Witness for store idempotence at a one-session store. -/
theorem getOrCreateSession_idempotent_witness :
    List.lookup "sess-1" (Store.mk [("sess-1", 0)] [⟨"sess-1", []⟩]).refs =
      some 0 ∧
    getOrCreateSession (some "sess-1") "fresh-a"
      (Store.mk [("sess-1", 0)] [⟨"sess-1", []⟩]) =
      (0, Store.mk [("sess-1", 0)] [⟨"sess-1", []⟩]) :=
  ⟨rfl,
   (getOrCreateSession_idempotent (Store.mk [("sess-1", 0)] [⟨"sess-1", []⟩])
     "sess-1" 0 "fresh-a" "fresh-b" (by decide) rfl).1⟩

/-- Updating index `i` changes exactly the element read back at `i`. -/
lemma listModify_get? (l : List α) (i : Nat) (f : α → α) :
    (listModify l i f).get? i = (l.get? i).map f := by
  induction l generalizing i with
  | nil => cases i <;> rfl
  | cons x xs ih =>
    cases i with
    | zero => rfl
    | succ n =>
      show (listModify xs n f).get? n = (xs.get? n).map f
      exact ih n

/-- The session object after the handler's user push. -/
lemma pushTurn_get? (st : Store) (r : Nat) (t : Turn) (s : Session)
    (h : st.objs.get? r = some s) :
    (pushTurn st r t).objs.get? r =
      some ⟨s.id, s.messages ++ [t]⟩ := by
  unfold pushTurn
  show (listModify st.objs r _).get? r = _
  rw [listModify_get?, h]
  rfl

/-- C10: when the orchestrator fails terminally, both handlers answer a
server fault and leave the session exactly one user Turn longer than
before the request — the Turn pushed before the generation call remains,
and no assistant Turn is appended (no rollback on error). -/
theorem handlers_no_rollback (b : Backend) (st st1 : Store)
    (sid : Option String) (fresh : String) (r : Nat) (oldSess : Session)
    (e : String) :
    (∀ msg : String, msg ≠ "" →
      getOrCreateSession sid fresh st = (r, st1) →
      st1.objs.get? r = some oldSess →
      (generateWithFallback b
          ⟨oldSess.id, oldSess.messages ++ [⟨Role.user, JSVal.str msg⟩]⟩).1 =
        Except.error e →
      e ≠ "" →
      apiChat b fresh st sid (JSVal.str msg) =
        (ApiResponse.serverError e,
          pushTurn st1 r ⟨Role.user, JSVal.str msg⟩) ∧
      (pushTurn st1 r ⟨Role.user, JSVal.str msg⟩).objs.get? r =
        some ⟨oldSess.id,
          oldSess.messages ++ [⟨Role.user, JSVal.str msg⟩]⟩) ∧
    (∀ fn : String, ∀ ft fc instr : Option String, ∀ fs : Option Int,
      fn ≠ "" →
      getOrCreateSession sid fresh st = (r, st1) →
      st1.objs.get? r = some oldSess →
      (generateWithFallback b
          ⟨oldSess.id, oldSess.messages ++ [⟨Role.user,
            JSVal.str (messageForModel fn ft (humanSizeOf fs) fc instr)⟩]⟩).1 =
        Except.error e →
      e ≠ "" →
      apiUpload b fresh st sid (some fn) ft fs fc instr =
        (ApiResponse.serverError e,
          pushTurn st1 r ⟨Role.user,
            JSVal.str (messageForModel fn ft (humanSizeOf fs) fc instr)⟩) ∧
      (pushTurn st1 r ⟨Role.user,
          JSVal.str (messageForModel fn ft (humanSizeOf fs) fc instr)⟩).objs.get? r =
        some ⟨oldSess.id, oldSess.messages ++ [⟨Role.user,
          JSVal.str (messageForModel fn ft (humanSizeOf fs) fc instr)⟩]⟩) := by
  constructor
  · intro msg hmsg hro hold hgen hne
    have hpush := pushTurn_get? st1 r ⟨Role.user, JSVal.str msg⟩ oldSess hold
    have hcond : (!(truthy (JSVal.str msg) && isString (JSVal.str msg))) = false := by
      simp [truthy, isString, hmsg]
    refine ⟨?_, hpush⟩
    simp only [apiChat, hcond, Bool.false_eq_true, if_false, hro]
    rw [hpush]
    simp only [Option.getD_some]
    rw [hgen]
    simp only [if_neg hne]
  · intro fn ft fc instr fs hfn hro hold hgen hne
    have hpush := pushTurn_get? st1 r
      ⟨Role.user, JSVal.str (messageForModel fn ft (humanSizeOf fs) fc instr)⟩
      oldSess hold
    refine ⟨?_, hpush⟩
    simp only [apiUpload, if_neg hfn, hro]
    rw [hpush]
    simp only [Option.getD_some]
    rw [hgen]
    simp only [if_neg hne]

/-- Witness for the no-rollback theorem: both handlers on a fresh
one-session store with a backend whose tiers all raise. -/
theorem handlers_no_rollback_witness :
    getOrCreateSession (some "w") "fresh" Store.empty =
      (0, Store.mk [("w", 0)] [⟨"w", []⟩]) ∧
    (apiChat ⟨fun _ _ => Except.error "primary down",
        fun _ => Except.error "secondary boom"⟩ "fresh" Store.empty
        (some "w") (JSVal.str "hi") =
      (ApiResponse.serverError "primary down",
        pushTurn (Store.mk [("w", 0)] [⟨"w", []⟩]) 0
          ⟨Role.user, JSVal.str "hi"⟩) ∧
      (pushTurn (Store.mk [("w", 0)] [⟨"w", []⟩]) 0
          ⟨Role.user, JSVal.str "hi"⟩).objs.get? 0 =
        some ⟨"w", [] ++ [⟨Role.user, JSVal.str "hi"⟩]⟩) ∧
    (apiUpload ⟨fun _ _ => Except.error "primary down",
        fun _ => Except.error "secondary boom"⟩ "fresh" Store.empty
        (some "w") (some "u.zip") none none none none =
      (ApiResponse.serverError "primary down",
        pushTurn (Store.mk [("w", 0)] [⟨"w", []⟩]) 0
          ⟨Role.user, JSVal.str
            (messageForModel "u.zip" none (humanSizeOf none) none none)⟩) ∧
      (pushTurn (Store.mk [("w", 0)] [⟨"w", []⟩]) 0
          ⟨Role.user, JSVal.str
            (messageForModel "u.zip" none (humanSizeOf none) none none)⟩).objs.get? 0 =
        some ⟨"w", [] ++ [⟨Role.user, JSVal.str
          (messageForModel "u.zip" none (humanSizeOf none) none none)⟩]⟩) :=
  ⟨rfl,
   (handlers_no_rollback
     ⟨fun _ _ => Except.error "primary down",
      fun _ => Except.error "secondary boom"⟩
     Store.empty (Store.mk [("w", 0)] [⟨"w", []⟩])
     (some "w") "fresh" 0 ⟨"w", []⟩ "primary down").1 "hi"
     (by decide) rfl rfl rfl (by decide),
   (handlers_no_rollback
     ⟨fun _ _ => Except.error "primary down",
      fun _ => Except.error "secondary boom"⟩
     Store.empty (Store.mk [("w", 0)] [⟨"w", []⟩])
     (some "w") "fresh" 0 ⟨"w", []⟩ "primary down").2 "u.zip"
     none none none none
     (by decide) rfl rfl rfl (by decide)⟩
